import Mathlib

/-!
Verification development for the ScreenshotOCR pipeline.

Shallow embedding of the Python sources:
  * `OCR/enhanced_ocr_processor.py` — quality assessment, strategy selection,
    result scoring/selection, text post-processing, AI-analysis shape and
    the storage-queue push of the OCR stage;
  * `api/text_analyzer.py` — the text-analysis stage;
  * `api/storage_processor.py` — the database write of the Storage stage.

Python floats are modelled as rationals (`ℚ`), Python strings as `String`
(character lists), JSON objects reaching dynamic lookups as association
lists.  External capabilities (the OCR engine, the AI services, the
database) are parameters: only the code around them is embedded.
-/

namespace ScreenshotOCR

/-! ## Python string primitives

Models of the `str` methods used by `post_process_text`, `strip` and
`split`.  Whitespace and printability are modelled on the ASCII range
(`str.split`/`str.strip` split on the ASCII whitespace characters; a
character is printable iff it is in the range 0x20–0x7E). -/

/-- Model of Python whitespace (`str.isspace` on ASCII): space, tab,
newline, carriage return, vertical tab, form feed. -/
def pyIsSpace (c : Char) : Bool :=
  c = ' ' || c = '\t' || c = '\n' || c = '\r' || c = '\x0b' || c = '\x0c'

/-- Model of Python `str.isprintable` on the ASCII range: printable iff
the code point is in 0x20–0x7E. -/
def pyIsPrintable (c : Char) : Bool :=
  32 ≤ c.toNat && c.toNat ≤ 126

/-- Model of `str.split()` with no separator: maximal runs of non-whitespace
characters.  `acc` accumulates the current word in reverse. -/
def splitWsAux : List Char → List Char → List (List Char)
  | [], acc => if acc.isEmpty then [] else [acc.reverse]
  | c :: cs, acc =>
      if pyIsSpace c then
        if acc.isEmpty then splitWsAux cs []
        else acc.reverse :: splitWsAux cs []
      else splitWsAux cs (c :: acc)

/-- Model of `text.split()` on the character list of a string. -/
def splitWs (l : List Char) : List (List Char) :=
  splitWsAux l []

/-- Model of the `join` call with a single-space separator. -/
def joinSp : List (List Char) → List Char
  | [] => []
  | [w] => w
  | w :: w' :: ws => w ++ ' ' :: joinSp (w' :: ws)

/-- Leading-whitespace strip (`str.lstrip()`). -/
def stripL (l : List Char) : List Char :=
  l.dropWhile pyIsSpace

/-- Model of `str.strip()`: drop leading and trailing whitespace. -/
def stripWs (l : List Char) : List Char :=
  ((stripL l).reverse.dropWhile pyIsSpace).reverse

/-- Model of `text.replace` from pipe to letter I, applied
character-wise (single-character pattern). -/
def substPipe (c : Char) : Char := if c = '|' then 'I' else c

/-- Model of `text.replace` from digit zero to letter O. -/
def substZero (c : Char) : Char := if c = '0' then 'O' else c

/-- Model of `text.replace` from digit five to letter S. -/
def substFive (c : Char) : Char := if c = '5' then 'S' else c

/-- The three `replace` calls of `post_process_text`, in source order. -/
def substAll (l : List Char) : List Char :=
  ((l.map substPipe).map substZero).map substFive

/-- The three sequential single-character `replace` calls act
character-wise as one composite substitution. -/
def substC (c : Char) : Char :=
  substFive (substZero (substPipe c))

/-- Model of `EnhancedOCRProcessor.post_process_text` on a character list:
`if not text: return text`; collapse whitespace via a split and a
single-space join;
the three `replace` calls; drop non-printable characters; `strip()`. -/
def postProcessChars (l : List Char) : List Char :=
  if l.isEmpty then l
  else stripWs ((substAll (joinSp (splitWs l))).filter pyIsPrintable)

/-- Model of `EnhancedOCRProcessor.post_process_text` (enhanced_ocr_processor.py,
lines 552–568). -/
def post_process_text (s : String) : String :=
  String.mk (postProcessChars s.data)

/-- Model of `str.strip()` on a string (used by `analyze_with_ai` and
`process_text_job` through `text.strip()` truthiness tests). -/
def pyStrip (s : String) : String :=
  String.mk (stripWs s.data)

/-! ## Quality assessment (`assess_image_quality`, lines 230–272)

The raw measurements (Laplacian variance, pixel standard deviation, pixel
mean, post-denoise variance ratio, edge-pixel fraction) come from OpenCV
calls on the grayscale image; they are modelled as rational parameters
together with the ranges those statistics can actually take on an 8-bit
grayscale image.  The arithmetic from raw measurements to scores is
embedded verbatim. -/

/-- The `ImageQualityMetrics` dataclass. -/
structure ImageQualityMetrics where
  sharpness : ℚ
  contrast : ℚ
  brightness : ℚ
  noise_level : ℚ
  text_density : ℚ
  overall_score : ℚ
deriving DecidableEq, Repr

/-- Raw grayscale-image statistics feeding `assess_image_quality`:
`sharpness` = variance of the Laplacian, `contrast` = pixel standard
deviation, `brightness` = pixel mean, `noise_level` = variance of the
denoised image divided by the original variance, `text_density` =
fraction of edge pixels. -/
structure RawImageStats where
  sharpness : ℚ
  contrast : ℚ
  brightness : ℚ
  noise_level : ℚ
  text_density : ℚ
deriving DecidableEq, Repr

/-- The ranges the raw statistics can take on an 8-bit grayscale image:
variances and the variance ratio are nonnegative, the pixel mean lies in
[0, 255], the edge-pixel fraction in [0, 1]. -/
def feasibleStats (s : RawImageStats) : Prop :=
  0 ≤ s.sharpness ∧ 0 ≤ s.contrast ∧
  0 ≤ s.brightness ∧ s.brightness ≤ 255 ∧
  0 ≤ s.noise_level ∧
  0 ≤ s.text_density ∧ s.text_density ≤ 1

instance (s : RawImageStats) : Decidable (feasibleStats s) := by
  unfold feasibleStats; infer_instance

/-- Model of `EnhancedOCRProcessor.assess_image_quality`, score computation
(lines 253–268): the success path from raw statistics to the returned
`ImageQualityMetrics`. -/
def assess_image_quality (s : RawImageStats) : ImageQualityMetrics :=
  let sharpness_score : ℚ := min (s.sharpness / 100) 1 * 100
  let contrast_score : ℚ := min (s.contrast / 50) 1 * 100
  let brightness_score : ℚ := 100 - |s.brightness - 127| / 127 * 100
  let noise_score : ℚ := max 0 (100 - s.noise_level * 100)
  let text_score : ℚ := min (s.text_density * 500) 100
  let overall_score : ℚ :=
    (sharpness_score + contrast_score + brightness_score + noise_score
      + text_score) / 5
  { sharpness := sharpness_score
    contrast := contrast_score
    brightness := brightness_score
    noise_level := noise_score
    text_density := text_score
    overall_score := overall_score }

/-- Mean pixel value of a grayscale image given as a pixel list
(`gray.mean()`), grounding the `brightness` raw statistic. -/
def grayMean (pixels : List ℕ) : ℚ :=
  (pixels.sum : ℚ) / pixels.length

/-! ## Strategy catalog and selection (lines 87–128 and 469–487) -/

/-- The `OCRStrategy` dataclass. -/
structure OCRStrategy where
  name : String
  psm : ℕ
  oem : ℕ
  config : String
  preprocessing_type : String
  description : String
deriving DecidableEq, Repr

/-- Entry `self.ocr_strategies[0]`. -/
def strategy_document_text : OCRStrategy :=
  { name := "document_text", psm := 6, oem := 3
    config := "--psm 6 --oem 3 -c tessedit_char_whitelist=0123456789ABCDEFGHIJKLMNOPQRSTUVWXYZabcdefghijklmnopqrstuvwxyz !\"#$%&\x27()*+,-./:;<=>?@[\\]^_\x60\x7b|\x7d~"
    preprocessing_type := "document"
    description := "For clean document text with uniform layout" }

/-- Entry `self.ocr_strategies[1]`. -/
def strategy_screenshot_mixed : OCRStrategy :=
  { name := "screenshot_mixed", psm := 11, oem := 3
    config := "--psm 11 --oem 3"
    preprocessing_type := "screenshot"
    description := "For screenshots with mixed text and graphics" }

/-- Entry `self.ocr_strategies[2]`. -/
def strategy_single_line : OCRStrategy :=
  { name := "single_line", psm := 8, oem := 3
    config := "--psm 8 --oem 3"
    preprocessing_type := "line"
    description := "For single lines or words" }

/-- Entry `self.ocr_strategies[3]`. -/
def strategy_web_content : OCRStrategy :=
  { name := "web_content", psm := 3, oem := 3
    config := "--psm 3 --oem 3"
    preprocessing_type := "web"
    description := "For web pages and complex layouts" }

/-- Entry `self.ocr_strategies[4]`. -/
def strategy_dense_text : OCRStrategy :=
  { name := "dense_text", psm := 6, oem := 1
    config := "--psm 6 --oem 1"
    preprocessing_type := "document_enhanced"
    description := "For dense text with legacy engine" }

/-- Catalog `self.ocr_strategies` (lines 87–128). -/
def ocr_strategies : List OCRStrategy :=
  [strategy_document_text, strategy_screenshot_mixed, strategy_single_line,
   strategy_web_content, strategy_dense_text]

/-- Model of `EnhancedOCRProcessor._select_strategies_by_quality` (lines 469–487):
always `ocr_strategies[0]` (document_text) and `ocr_strategies[1]`
(screenshot_mixed); append `ocr_strategies[4]` (dense_text) when
`text_density > 60`, `ocr_strategies[3]` (web_content) when
`overall_score < 60`, `ocr_strategies[2]` (single_line) when
`sharpness < 50`, in that order. -/
def select_strategies_by_quality (q : ImageQualityMetrics) :
    List OCRStrategy :=
  [strategy_document_text, strategy_screenshot_mixed]
    ++ (if q.text_density > 60 then [strategy_dense_text] else [])
    ++ (if q.overall_score < 60 then [strategy_web_content] else [])
    ++ (if q.sharpness < 50 then [strategy_single_line] else [])

/-! ## Candidates, scoring and best-result selection (lines 410–550) -/

/-- One extraction attempt, as appended to `results` in
`apply_multiple_strategies` (lines 448–457). -/
structure Candidate where
  text : String
  confidence : ℚ
  language : String
  language_code : String
  strategy : String
  preprocessing : String
  text_length : ℕ
  word_count : ℕ
deriving DecidableEq, Repr

/-- The best-result dictionary: the fields of the sentinel returned by
`select_best_result` for an empty candidate list, also the fields of a
winning candidate that are read downstream. -/
structure BestResult where
  text : String
  confidence : ℚ
  language : String
  language_code : String
  strategy : String
  preprocessing : String
deriving DecidableEq, Repr

/-- Projection of a winning `Candidate` to the fields read downstream. -/
def Candidate.toBest (c : Candidate) : BestResult :=
  { text := c.text, confidence := c.confidence, language := c.language
    language_code := c.language_code, strategy := c.strategy
    preprocessing := c.preprocessing }

/-- The sentinel dictionary returned by `select_best_result` when
`results` is empty (lines 491–499). -/
def sentinel_result : BestResult :=
  { text := "", confidence := 0, language := "unknown"
    language_code := "eng", strategy := "none", preprocessing := "none" }

/-- The `strategy_bonus` lookup table of `_calculate_result_score`
(lines 532–538); `.get(key, 0)` returns 0 for unlisted keys. -/
def strategy_bonus (strategy : String) : ℚ :=
  if strategy = "document_text" then 10
  else if strategy = "screenshot_mixed" then 8
  else if strategy = "web_content" then 6
  else if strategy = "dense_text" then 7
  else if strategy = "single_line" then 5
  else 0

/-- The `language_bonus` lookup table of `_calculate_result_score`
(lines 542–547). -/
def language_bonus (language : String) : ℚ :=
  if language = "auto" then 5
  else if language = "multi_european" then 8
  else if language = "english" then 7
  else if language = "german" then 7
  else 0

/-- Model of `EnhancedOCRProcessor._calculate_result_score` (lines 516–550). -/
def calculate_result_score (r : Candidate) : ℚ :=
  r.confidence * (4/10)
    + min ((r.text_length : ℚ) / 100) 1 * 100 * (2/10)
    + min ((r.word_count : ℚ) / 10) 1 * 100 * (15/100)
    + strategy_bonus r.strategy * (15/100)
    + language_bonus r.language * (10/100)

/-- Head of the stable descending sort by score (lines 502–510): the
source scores each candidate, sorts `(score, result)` pairs by score
with `reverse=True` (the Python sort is stable, so candidates with equal
scores keep input order) and takes element 0 — i.e. the first candidate
attaining the maximal score.  Embedded as the first-wins fold. -/
def pickBest (r : Candidate) (rs : List Candidate) : Candidate :=
  rs.foldl
    (fun b c =>
      if calculate_result_score b < calculate_result_score c then c else b)
    r

/-- Model of `EnhancedOCRProcessor.select_best_result` (lines 489–514). -/
def select_best_result : List Candidate → BestResult
  | [] => sentinel_result
  | r :: rs => (pickBest r rs).toBest

/-! ## AI analysis and enhanced storage (lines 570–656)

`analyze_with_ai` returns a JSON object; only its empty-text early return
is determined by the code (`if not text.strip(): return {"error": "No
text to analyze"}`) — every other return value depends on an external AI
service and is a parameter.  `store_enhanced_results` reads the keys
`analysis`, `model` and `tokens_used` from that object; a missing key
raises `KeyError`, which the except handler of the function swallows,
so nothing is pushed onto `storage_queue`. -/

/-- A JSON value as carried in the dynamic result dictionaries. -/
inductive JVal where
  | s (v : String)
  | i (v : ℤ)
  | q (v : ℚ)
  | null
deriving DecidableEq, Repr

/-- A JSON object: an association list with Python-dict lookup. -/
def JDict := List (String × JVal)

/-- Lookup of a key as an `Option` (`none` models a `KeyError`). -/
def JDict.get (d : JDict) (k : String) : Option JVal :=
  (List.find? (fun p => p.1 = k) d).map (fun p => p.2)

/-- Model of `EnhancedOCRProcessor.analyze_with_ai` (lines 570–620): for text that
is empty after stripping, return `{"error": "No text to analyze"}` before
contacting any AI service; otherwise the result is whatever the external
AI exchange produced (Gemini JSON, OpenAI JSON, or an error object),
passed in as `external`. -/
def analyze_with_ai (text : String) (external : JDict) : JDict :=
  if pyStrip text = "" then [("error", JVal.s "No text to analyze")]
  else external

/-- The storage dictionary pushed by the OCR stage
(`store_enhanced_results`, lines 632–648). -/
structure EnhancedStorageData where
  user_id : ℤ
  folder_id : Option ℤ
  ocr_text : String
  ai_response : JVal
  image_path : String
  ocr_confidence : ℚ
  ocr_language : String
  ai_model : JVal
  ai_tokens : JVal
  ocr_strategy : String
  preprocessing_type : String
  image_quality_score : ℚ
  strategies_tried : ℕ
  text_length : ℕ
  word_count : ℕ
deriving DecidableEq, Repr

/-- Model of `EnhancedOCRProcessor.store_enhanced_results` (lines 622–656),
returning the list of messages pushed onto `storage_queue`: `user_id`
defaults to 1 when `None`; building `storage_data` reads
the keys `analysis`, `model` and `tokens_used` of `ai_analysis` — if any
is missing the `KeyError` is caught by the except handler of the
function, which only logs, and nothing is pushed. -/
def store_enhanced_results (user_id : Option ℤ) (folder_id : Option ℤ)
    (ocr_result : BestResult) (ai_analysis : JDict) (file_path : String)
    (quality_metrics : ImageQualityMetrics) (strategies_tried : ℕ) :
    List EnhancedStorageData :=
  let uid := user_id.getD 1
  match ai_analysis.get "analysis", ai_analysis.get "model",
      ai_analysis.get "tokens_used" with
  | some a, some m, some t =>
      [{ user_id := uid
         folder_id := folder_id
         ocr_text := ocr_result.text
         ai_response := a
         image_path := file_path
         ocr_confidence := ocr_result.confidence
         ocr_language := ocr_result.language
         ai_model := m
         ai_tokens := t
         ocr_strategy := ocr_result.strategy
         preprocessing_type := ocr_result.preprocessing
         image_quality_score := quality_metrics.overall_score
         strategies_tried := strategies_tried
         text_length := ocr_result.text.length
         word_count := (splitWs ocr_result.text.data).length }]
  | _, _, _ => []

/-- Steps 3–6 of `EnhancedOCRProcessor.process_job` (lines 192–211):
select the best result from the extraction candidates, post-process its
text, analyze with AI, store.  Returns the `storage_queue` messages
pushed for the job. -/
def process_job_after_extraction (user_id folder_id : Option ℤ)
    (file_path : String) (quality_metrics : ImageQualityMetrics)
    (ocr_results : List Candidate) (ai_external : JDict) :
    List EnhancedStorageData :=
  let best := select_best_result ocr_results
  let best' := { best with text := post_process_text best.text }
  let ai_analysis := analyze_with_ai best'.text ai_external
  store_enhanced_results user_id folder_id best' ai_analysis file_path
    quality_metrics ocr_results.length

/-! ## Text-analysis stage (`api/text_analyzer.py`) -/

/-- A `text_analysis_queue` job as read by `process_text_job`
(lines 77–108): every field is fetched with `job.get`, so each may be
absent. -/
structure TextJob where
  direct_text : Option String
  user_id : Option ℤ
  folder_id : Option ℤ
  language : Option String
  file_path : Option String
deriving DecidableEq, Repr

/-- The dictionary returned by `TextAnalyzer.analyze_text_with_ai`
(lines 110–170): always carries `analysis`, `model` and `tokens_used`
(the success shape, the empty-text shape and the error shape all do). -/
structure AIAnalysis where
  analysis : String
  model : String
  tokens_used : ℤ
deriving DecidableEq, Repr

/-- The storage dictionary pushed by `store_text_analysis_results`
(lines 181–197). -/
structure TextStorageData where
  user_id : ℤ
  folder_id : Option ℤ
  ocr_text : String
  ai_response : String
  image_path : String
  ocr_confidence : ℚ
  ocr_language : String
  ai_model : String
  ai_tokens : ℤ
  ocr_strategy : String
  preprocessing_type : String
  image_quality_score : ℚ
  strategies_tried : ℕ
  text_length : ℕ
  word_count : ℕ
deriving DecidableEq, Repr

/-- Model of `TextAnalyzer.store_text_analysis_results` (lines 172–205): defaults
`user_id` to 1, builds the storage dictionary and pushes it onto
`storage_queue` (every field access succeeds, so exactly one message). -/
def store_text_analysis_results (user_id : Option ℤ) (folder_id : Option ℤ)
    (text_content : String) (ai_analysis : AIAnalysis) (file_path : String)
    (language : String) : TextStorageData :=
  { user_id := user_id.getD 1
    folder_id := folder_id
    ocr_text := text_content
    ai_response := ai_analysis.analysis
    image_path := file_path
    ocr_confidence := 100
    ocr_language := language
    ai_model := ai_analysis.model
    ai_tokens := ai_analysis.tokens_used
    ocr_strategy := "clipboard_text"
    preprocessing_type := "none"
    image_quality_score := 100
    strategies_tried := 1
    text_length := text_content.length
    word_count := (splitWs text_content.data).length }

/-- Observable effects of one run of `process_text_job`: how many times
the AI-analysis capability was invoked, and the messages pushed onto
`storage_queue`. -/
structure TextJobEffects where
  ai_calls : ℕ
  storage_msgs : List TextStorageData
deriving DecidableEq, Repr

/-- Model of `TextAnalyzer.process_text_job` (lines 77–108): reads
`direct_text` (default empty), `language` (default auto) etc. via
`job.get`; if the
text is empty after stripping (`if not text_content.strip()`), logs and
returns — no AI call, no storage push.  Otherwise one AI call (whose
outcome `ai_oracle` is external and never raises: `analyze_text_with_ai`
catches everything and returns an error dictionary) and one storage
push. -/
def process_text_job (ai_oracle : String → String → AIAnalysis)
    (job : TextJob) : TextJobEffects :=
  let text_content := job.direct_text.getD ""
  let language := job.language.getD "auto"
  if pyStrip text_content = "" then ⟨0, []⟩
  else
    let ai_analysis := ai_oracle text_content language
    ⟨1, [store_text_analysis_results job.user_id job.folder_id text_content
          ai_analysis (job.file_path.getD "") language]⟩

/-! ## Storage stage (`api/storage_processor.py`) -/

/-- A `storage_queue` message as read by `store_response` (lines 85–124):
every field is fetched with `job_data.get`, so each may be absent.  Only
the fields the function reads are listed first; the six extra fields
produced by the upstream stages follow. -/
structure StorageMsg where
  user_id : Option ℤ
  folder_id : Option ℤ
  ocr_text : Option String
  ai_response : Option String
  image_path : Option String
  ocr_confidence : Option ℚ
  ocr_language : Option String
  ai_model : Option String
  ai_tokens : Option ℤ
  ocr_strategy : Option String
  preprocessing_type : Option String
  image_quality_score : Option ℚ
  strategies_tried : Option ℕ
  text_length : Option ℕ
  word_count : Option ℕ
deriving DecidableEq, Repr

/-- The row inserted into `responses`: the nine columns of the `INSERT`
statement (lines 104–117). -/
structure DBRow where
  user_id : ℤ
  folder_id : Option ℤ
  ocr_text : String
  ai_response : String
  image_path : String
  ocr_confidence : ℚ
  ocr_language : String
  ai_model : String
  ai_tokens : ℤ
deriving DecidableEq, Repr

/-- Outcome of `StorageProcessor.store_response`: either the job is
dropped before any database interaction (the `if not user_id` early
return), or one row is handed to the database `INSERT`. -/
inductive StoreOutcome where
  | dropped
  | insert (row : DBRow)
deriving DecidableEq, Repr

/-- Model of `StorageProcessor.store_response` (lines 85–124): reads the nine
fields with defaults (empty string, 0, unknown); `if not user_id` (true for
an absent key, a JSON `null` — both `None` after `json.loads` — and `0`)
logs and returns with no database write; otherwise inserts exactly the
nine read fields. -/
def store_response (j : StorageMsg) : StoreOutcome :=
  match j.user_id with
  | none => .dropped
  | some uid =>
      if uid = 0 then .dropped
      else
        .insert
          { user_id := uid
            folder_id := j.folder_id
            ocr_text := j.ocr_text.getD ""
            ai_response := j.ai_response.getD ""
            image_path := j.image_path.getD ""
            ocr_confidence := j.ocr_confidence.getD 0
            ocr_language := j.ocr_language.getD "unknown"
            ai_model := j.ai_model.getD "unknown"
            ai_tokens := j.ai_tokens.getD 0 }

/-! ## Concrete inputs used by witnesses and counterexamples -/

/-- Raw statistics of a 1×1 all-white grayscale image: Laplacian variance
0, pixel standard deviation 0, pixel mean `grayMean [255] = 255`, edge
fraction 0.  (In the source the variance ratio is `0.0/0.0`, a NaN under
NumPy rather than an exception; the brightness violation below is
independent of it, so 0 is used.) -/
def allWhite1x1Stats : RawImageStats :=
  { sharpness := 0, contrast := 0
    brightness := grayMean (List.replicate 1 255)
    noise_level := 0, text_density := 0 }

/-- Raw statistics of a plausible mid-gray document image, used as the
concrete input of the witness for the amended C1. -/
def midGrayStats : RawImageStats :=
  { sharpness := 200, contrast := 30, brightness := 127
    noise_level := 1/2, text_density := 1/10 }

/-- The quality metrics of a dense-text image used as the witness input
for C3. -/
def denseMetrics : ImageQualityMetrics :=
  { sharpness := 80, contrast := 80, brightness := 80
    noise_level := 80, text_density := 70, overall_score := 78 }

/-- The whitespace-only text job of end-to-end scenario B. -/
def whitespaceJob : TextJob :=
  { direct_text := some "   ", user_id := some 1, folder_id := none
    language := some "auto", file_path := some "" }

/-- A fixed AI-capability outcome used to close the C6 witness (the
empty-text path never consults it). -/
def constOracle : String → String → AIAnalysis :=
  fun _ _ => { analysis := "ok", model := "gpt-3.5-turbo", tokens_used := 1 }

/-- A full 15-field storage message, the C9 witness input. -/
def fullStorageMsg : StorageMsg :=
  { user_id := some 2, folder_id := some 7, ocr_text := some "Invoice"
    ai_response := some "an invoice", image_path := some "/a.png"
    ocr_confidence := some 88, ocr_language := some "english"
    ai_model := some "gpt-3.5-turbo", ai_tokens := some 120
    ocr_strategy := some "document_text"
    preprocessing_type := some "document"
    image_quality_score := some 91, strategies_tried := some 3
    text_length := some 7, word_count := some 1 }

/-- Variant of `fullStorageMsg` with all six extra metadata fields changed. -/
def fullStorageMsgAltMeta : StorageMsg :=
  { fullStorageMsg with
    ocr_strategy := some "dense_text"
    preprocessing_type := some "document_enhanced"
    image_quality_score := some 5, strategies_tried := some 5
    text_length := some 999, word_count := some 999 }

/-- First witness candidate for C7: ties with `tieCandB` on score. -/
def tieCandA : Candidate :=
  { text := "alpha beta", confidence := 50, language := "english"
    language_code := "eng", strategy := "document_text"
    preprocessing := "document", text_length := 10, word_count := 2 }

/-- Second witness candidate for C7: same score as `tieCandA` (identical
scoring fields), later in input order. -/
def tieCandB : Candidate :=
  { text := "gamma delta", confidence := 50, language := "english"
    language_code := "eng", strategy := "document_text"
    preprocessing := "document", text_length := 10, word_count := 2 }

/-- C1, counterexample: on an all-white 1×1 image the grayscale mean is
255, so `brightness_score = 100 - |255 - 127| / 127 * 100 = -100/127 < 0`
— the returned metrics are NOT all within [0,100] as the claim states. -/
theorem claim_C1_counterexample :
    feasibleStats allWhite1x1Stats ∧
    allWhite1x1Stats.brightness = 255 ∧
    (assess_image_quality allWhite1x1Stats).brightness < 0 := by
  refine ⟨?_, ?_, ?_⟩ <;>
    norm_num [feasibleStats, allWhite1x1Stats, assess_image_quality,
      grayMean]

/-- C1, amended: for every feasible raw-statistics vector (Laplacian
variance ≥ 0, standard deviation ≥ 0, mean in [0,255], variance ratio
≥ 0, edge fraction in [0,1]), five of the six returned fields lie in
[0,100]; `brightness` lies in [-100/127, 100] (it can dip just below 0
when the grayscale mean exceeds 254, e.g. on an all-white image);
`overall_score` equals the arithmetic mean of the other five fields and
hence lies in [-20/127, 100]. -/
theorem claim_C1_amended (s : RawImageStats) (h : feasibleStats s) :
    (0 ≤ (assess_image_quality s).sharpness ∧
      (assess_image_quality s).sharpness ≤ 100) ∧
    (0 ≤ (assess_image_quality s).contrast ∧
      (assess_image_quality s).contrast ≤ 100) ∧
    (-(100/127) ≤ (assess_image_quality s).brightness ∧
      (assess_image_quality s).brightness ≤ 100) ∧
    (0 ≤ (assess_image_quality s).noise_level ∧
      (assess_image_quality s).noise_level ≤ 100) ∧
    (0 ≤ (assess_image_quality s).text_density ∧
      (assess_image_quality s).text_density ≤ 100) ∧
    (assess_image_quality s).overall_score =
      ((assess_image_quality s).sharpness + (assess_image_quality s).contrast
        + (assess_image_quality s).brightness
        + (assess_image_quality s).noise_level
        + (assess_image_quality s).text_density) / 5 ∧
    (-(20/127) ≤ (assess_image_quality s).overall_score ∧
      (assess_image_quality s).overall_score ≤ 100) := by
  obtain ⟨h1, h2, h3, h4, h5, h6, h7⟩ := h
  simp only [assess_image_quality]
  have hs0 : (0:ℚ) ≤ min (s.sharpness / 100) 1 :=
    le_min (by positivity) zero_le_one
  have hs1 : min (s.sharpness / 100) 1 ≤ 1 := min_le_right _ _
  have hc0 : (0:ℚ) ≤ min (s.contrast / 50) 1 :=
    le_min (by positivity) zero_le_one
  have hc1 : min (s.contrast / 50) 1 ≤ 1 := min_le_right _ _
  have hb0 : |s.brightness - 127| ≤ 128 :=
    abs_le.2 ⟨by linarith, by linarith⟩
  have hb1 : (0:ℚ) ≤ |s.brightness - 127| := abs_nonneg _
  have hn0 : (0:ℚ) ≤ max 0 (100 - s.noise_level * 100) := le_max_left _ _
  have hn1 : max 0 (100 - s.noise_level * 100) ≤ 100 :=
    max_le (by norm_num) (by nlinarith)
  have ht0 : (0:ℚ) ≤ min (s.text_density * 500) 100 :=
    le_min (by positivity) (by norm_num)
  have ht1 : min (s.text_density * 500) 100 ≤ 100 := min_le_right _ _
  refine ⟨⟨by nlinarith, by nlinarith⟩, ⟨by nlinarith, by nlinarith⟩,
    ⟨by linarith, by linarith⟩, ⟨hn0, hn1⟩, ⟨ht0, ht1⟩, by trivial,
    ⟨by nlinarith, by nlinarith⟩⟩

/-- C1, witness: the amended theorem applied to the raw statistics of a
mid-gray image. -/
theorem claim_C1_witness :
    feasibleStats midGrayStats ∧
    (0 ≤ (assess_image_quality midGrayStats).sharpness ∧
      (assess_image_quality midGrayStats).sharpness ≤ 100) :=
  ⟨by norm_num [feasibleStats, midGrayStats],
   (claim_C1_amended _ (by norm_num [feasibleStats, midGrayStats])).1⟩

/-- Membership characterization of `select_strategies_by_quality`. -/
theorem select_strategies_mem (q : ImageQualityMetrics)
    (st : OCRStrategy) :
    st ∈ select_strategies_by_quality q ↔
      st = strategy_document_text ∨ st = strategy_screenshot_mixed ∨
      (st = strategy_dense_text ∧ 60 < q.text_density) ∨
      (st = strategy_web_content ∧ q.overall_score < 60) ∨
      (st = strategy_single_line ∧ q.sharpness < 50) := by
  by_cases hd : (60:ℚ) < q.text_density <;>
    by_cases ho : q.overall_score < 60 <;>
      by_cases hs : q.sharpness < 50 <;>
        simp [select_strategies_by_quality, hd, ho, hs]

/-- C3: for every quality-metrics value, strategy selection always
contains `document_text` and `screenshot_mixed`; contains `dense_text`
iff `text_density > 60`, `web_content` iff `overall_score < 60`,
`single_line` iff `sharpness < 50`; contains only catalog strategies;
has between 2 and 5 elements; and is a deterministic function of the
metrics. -/
theorem claim_C3 (q : ImageQualityMetrics) :
    strategy_document_text ∈ select_strategies_by_quality q ∧
    strategy_screenshot_mixed ∈ select_strategies_by_quality q ∧
    (strategy_dense_text ∈ select_strategies_by_quality q ↔
      q.text_density > 60) ∧
    (strategy_web_content ∈ select_strategies_by_quality q ↔
      q.overall_score < 60) ∧
    (strategy_single_line ∈ select_strategies_by_quality q ↔
      q.sharpness < 50) ∧
    (∀ st ∈ select_strategies_by_quality q, st ∈ ocr_strategies) ∧
    2 ≤ (select_strategies_by_quality q).length ∧
    (select_strategies_by_quality q).length ≤ 5 ∧
    (∀ q' : ImageQualityMetrics, q = q' →
      select_strategies_by_quality q = select_strategies_by_quality q') :=
  by
  have d1 : strategy_dense_text ≠ strategy_document_text := by decide
  have d2 : strategy_dense_text ≠ strategy_screenshot_mixed := by decide
  have d3 : strategy_dense_text ≠ strategy_web_content := by decide
  have d4 : strategy_dense_text ≠ strategy_single_line := by decide
  have w1 : strategy_web_content ≠ strategy_document_text := by decide
  have w2 : strategy_web_content ≠ strategy_screenshot_mixed := by decide
  have w3 : strategy_web_content ≠ strategy_single_line := by decide
  have w4 : strategy_web_content ≠ strategy_dense_text := by decide
  have s1 : strategy_single_line ≠ strategy_document_text := by decide
  have s2 : strategy_single_line ≠ strategy_screenshot_mixed := by decide
  have s3 : strategy_single_line ≠ strategy_dense_text := by decide
  have s4 : strategy_single_line ≠ strategy_web_content := by decide
  refine ⟨?_, ?_, ?_, ?_, ?_, ?_, ?_, ?_, ?_⟩
  · exact (select_strategies_mem q _).2 (Or.inl rfl)
  · exact (select_strategies_mem q _).2 (Or.inr (Or.inl rfl))
  · simp [select_strategies_mem, d1, d2, d3, d4]
  · simp [select_strategies_mem, w1, w2, w3, w4]
  · simp [select_strategies_mem, s1, s2, s3, s4]
  · intro st hst
    rcases (select_strategies_mem q st).1 hst with
      h | h | ⟨h, _⟩ | ⟨h, _⟩ | ⟨h, _⟩ <;> subst h <;> simp [ocr_strategies]
  · by_cases hd : (60:ℚ) < q.text_density <;>
      by_cases ho : q.overall_score < 60 <;>
        by_cases hs : q.sharpness < 50 <;>
          simp [select_strategies_by_quality, hd, ho, hs]
  · by_cases hd : (60:ℚ) < q.text_density <;>
      by_cases ho : q.overall_score < 60 <;>
        by_cases hs : q.sharpness < 50 <;>
          simp [select_strategies_by_quality, hd, ho, hs]
  · intro q' e
    rw [e]

/-- C3, witness: the theorem applied at a concrete metrics value with
`text_density = 70 > 60`. -/
theorem claim_C3_witness :
    strategy_document_text ∈ select_strategies_by_quality denseMetrics ∧
    strategy_dense_text ∈ select_strategies_by_quality denseMetrics :=
  ⟨(claim_C3 denseMetrics).1,
   (claim_C3 denseMetrics).2.2.1.2 (by norm_num [denseMetrics])⟩

/-- C5: the candidate score is monotone in confidence when text length,
word count, strategy and language are held fixed. -/
theorem claim_C5 (r₁ r₂ : Candidate)
    (hl : r₁.text_length = r₂.text_length)
    (hw : r₁.word_count = r₂.word_count)
    (hs : r₁.strategy = r₂.strategy)
    (hg : r₁.language = r₂.language)
    (hc : r₂.confidence ≤ r₁.confidence) :
    calculate_result_score r₂ ≤ calculate_result_score r₁ := by
  unfold calculate_result_score
  rw [hl, hw, hs, hg]
  linarith

/-- C5, witness: the theorem applied to two concrete candidates that
differ only in confidence. -/
theorem claim_C5_witness :
    calculate_result_score
      { text := "hello world", confidence := 40, language := "english",
        language_code := "eng", strategy := "document_text",
        preprocessing := "document", text_length := 11, word_count := 2 } ≤
    calculate_result_score
      { text := "hello world", confidence := 75, language := "english",
        language_code := "eng", strategy := "document_text",
        preprocessing := "document", text_length := 11, word_count := 2 } :=
  claim_C5 _ _ rfl rfl rfl rfl (by norm_num)

/-- C6: a `text_analysis_queue` job whose `direct_text` is empty after
stripping is dropped before analysis — the AI capability is not invoked
and no `storage_queue` message is published, for any AI oracle. -/
theorem claim_C6 (ai_oracle : String → String → AIAnalysis) (job : TextJob)
    (h : pyStrip (job.direct_text.getD "") = "") :
    (process_text_job ai_oracle job).ai_calls = 0 ∧
    (process_text_job ai_oracle job).storage_msgs = [] := by
  simp only [process_text_job, h]
  exact ⟨rfl, rfl⟩

/-- C6, witness: the theorem applied to a job with
`direct_text = "   "`. -/
theorem claim_C6_witness :
    (process_text_job constOracle whitespaceJob).ai_calls = 0 ∧
    (process_text_job constOracle whitespaceJob).storage_msgs = [] :=
  claim_C6 constOracle whitespaceJob (by decide)

/-- C9: `store_response` depends only on the nine read fields — two
messages agreeing on them (but possibly differing on `ocr_strategy`,
`preprocessing_type`, `image_quality_score`, `strategies_tried`,
`text_length`, `word_count`) produce the same outcome — and when a row is
inserted it consists exactly of the nine read fields with their `get`
defaults. -/
theorem claim_C9 (j j' : StorageMsg)
    (h1 : j.user_id = j'.user_id) (h2 : j.folder_id = j'.folder_id)
    (h3 : j.ocr_text = j'.ocr_text) (h4 : j.ai_response = j'.ai_response)
    (h5 : j.image_path = j'.image_path)
    (h6 : j.ocr_confidence = j'.ocr_confidence)
    (h7 : j.ocr_language = j'.ocr_language)
    (h8 : j.ai_model = j'.ai_model) (h9 : j.ai_tokens = j'.ai_tokens) :
    store_response j = store_response j' ∧
    ∀ u : ℤ, j.user_id = some u → u ≠ 0 →
      store_response j = StoreOutcome.insert
        { user_id := u, folder_id := j.folder_id
          ocr_text := j.ocr_text.getD ""
          ai_response := j.ai_response.getD ""
          image_path := j.image_path.getD ""
          ocr_confidence := j.ocr_confidence.getD 0
          ocr_language := j.ocr_language.getD "unknown"
          ai_model := j.ai_model.getD "unknown"
          ai_tokens := j.ai_tokens.getD 0 } := by
  constructor
  · unfold store_response
    rw [h1, h2, h3, h4, h5, h6, h7, h8, h9]
  · intro u hu hne
    simp [store_response, hu, hne]

/-- C9, witness: the theorem applied to two concrete messages that agree
on the nine read fields and differ on all six extra fields. -/
theorem claim_C9_witness :
    store_response fullStorageMsg = store_response fullStorageMsgAltMeta ∧
    store_response fullStorageMsg = StoreOutcome.insert
      { user_id := 2, folder_id := fullStorageMsg.folder_id
        ocr_text := fullStorageMsg.ocr_text.getD ""
        ai_response := fullStorageMsg.ai_response.getD ""
        image_path := fullStorageMsg.image_path.getD ""
        ocr_confidence := fullStorageMsg.ocr_confidence.getD 0
        ocr_language := fullStorageMsg.ocr_language.getD "unknown"
        ai_model := fullStorageMsg.ai_model.getD "unknown"
        ai_tokens := fullStorageMsg.ai_tokens.getD 0 } :=
  ⟨(claim_C9 fullStorageMsg fullStorageMsgAltMeta rfl rfl rfl rfl rfl rfl
      rfl rfl rfl).1,
   (claim_C9 fullStorageMsg fullStorageMsgAltMeta rfl rfl rfl rfl rfl rfl
      rfl rfl rfl).2 2 rfl (by norm_num)⟩

/-- C10: a storage job whose `user_id` is absent, JSON `null` (both
`None` after parsing) or `0` is dropped before any database interaction:
`store_response` returns normally with no insert. -/
theorem claim_C10 (j : StorageMsg)
    (h : j.user_id = none ∨ j.user_id = some 0) :
    store_response j = StoreOutcome.dropped := by
  rcases h with h | h <;> simp [store_response, h]

/-- C10, witness: the theorem applied to a message with no `user_id`. -/
theorem claim_C10_witness :
    store_response { fullStorageMsg with user_id := none } =
      StoreOutcome.dropped :=
  claim_C10 { fullStorageMsg with user_id := none } (Or.inl rfl)

/-- C2: the claim is right and the code is wrong.  With zero extraction
candidates the empty text of the sentinel is passed to `analyze_with_ai`,
which returns `{"error": "No text to analyze"}`; `store_enhanced_results`
then raises `KeyError` on the `analysis` key lookup, its except handler only
logs, and NO message is pushed onto `storage_queue` — not the exactly-one
message the claim (and §7 of the spec) promises.  This theorem evaluates
the embedded pipeline tail at the failing input: the pushed-message list
is empty for every job identity, quality metrics and AI configuration. -/
theorem claim_C2 (user_id folder_id : Option ℤ) (file_path : String)
    (quality_metrics : ImageQualityMetrics) (ai_external : JDict) :
    process_job_after_extraction user_id folder_id file_path
      quality_metrics [] ai_external = [] :=
  rfl

/-! ## Helper lemmas on the string model -/

theorem substAll_eq_map (l : List Char) : substAll l = l.map substC := by
  simp only [substAll, List.map_map]
  rfl

theorem substC_ne (a : Char) :
    substC a ≠ '|' ∧ substC a ≠ '0' ∧ substC a ≠ '5' := by
  by_cases h1 : a = '|'
  · subst h1; decide
  · by_cases h2 : a = '0'
    · subst h2; decide
    · by_cases h3 : a = '5'
      · subst h3; decide
      · unfold substC substPipe substZero substFive
        rw [if_neg h1, if_neg h2, if_neg h3]
        exact ⟨h1, h2, h3⟩

theorem mem_of_mem_stripWs {m : List Char} {c : Char}
    (h : c ∈ stripWs m) : c ∈ m := by
  unfold stripWs stripL at h
  rw [List.mem_reverse] at h
  have h1 : c ∈ (m.dropWhile pyIsSpace).reverse :=
    (List.dropWhile_sublist _).mem h
  rw [List.mem_reverse] at h1
  exact (List.dropWhile_sublist _).mem h1

theorem postProcessChars_no_confusable (l : List Char) :
    ∀ c ∈ postProcessChars l, c ≠ '|' ∧ c ≠ '0' ∧ c ≠ '5' := by
  intro c hc
  unfold postProcessChars at hc
  split at hc
  case isTrue h =>
    rw [List.isEmpty_iff] at h
    subst h
    exact absurd hc (List.not_mem_nil c)
  case isFalse h =>
    have hc1 := mem_of_mem_stripWs hc
    have hc2 := (List.mem_filter.1 hc1).1
    rw [substAll_eq_map] at hc2
    obtain ⟨a, -, rfl⟩ := List.mem_map.1 hc2
    exact substC_ne a

/-- C8: `post_process_text` substitutes `'|' → 'I'`, `'0' → 'O'`,
`'5' → 'S'` unconditionally, so its output on a non-empty input never
contains `'|'`, `'0'` or `'5'` — even in numeric text. -/
theorem claim_C8 (s : String) (_hne : s ≠ "") :
    '|' ∉ (post_process_text s).data ∧
    '0' ∉ (post_process_text s).data ∧
    '5' ∉ (post_process_text s).data ∧
    substPipe '|' = 'I' ∧ substZero '0' = 'O' ∧ substFive '5' = 'S' := by
  refine ⟨fun hc => ?_, fun hc => ?_, fun hc => ?_,
    by decide, by decide, by decide⟩
  · exact (postProcessChars_no_confusable s.data '|' hc).1 rfl
  · exact (postProcessChars_no_confusable s.data '0' hc).2.1 rfl
  · exact (postProcessChars_no_confusable s.data '5' hc).2.2 rfl

/-- C8, witness: the theorem applied to an invoice-number-like string;
the substitutions mangle the digits, and indeed no `|`, `0` or `5`
survives. -/
theorem claim_C8_witness :
    '|' ∉ (post_process_text "Rechnung 2025-10 | Nr. 505").data ∧
    '0' ∉ (post_process_text "Rechnung 2025-10 | Nr. 505").data ∧
    '5' ∉ (post_process_text "Rechnung 2025-10 | Nr. 505").data ∧
    substPipe '|' = 'I' ∧ substZero '0' = 'O' ∧ substFive '5' = 'S' :=
  claim_C8 "Rechnung 2025-10 | Nr. 505" (by decide)

/-! ## Helper lemmas for best-result selection -/

theorem pickBest_cons (r c : Candidate) (rs : List Candidate) :
    pickBest r (c :: rs) =
      pickBest
        (if calculate_result_score r < calculate_result_score c then c
         else r) rs :=
  rfl

theorem score_le_pickBest :
    ∀ (rs : List Candidate) (r : Candidate),
      calculate_result_score r ≤ calculate_result_score (pickBest r rs)
  | [], r => le_refl _
  | c :: rs, r => by
      rw [pickBest_cons]
      refine le_trans ?_ (score_le_pickBest rs _)
      split
      case isTrue hlt => exact le_of_lt hlt
      case isFalse => exact le_refl _

theorem mem_score_le_pickBest :
    ∀ (rs : List Candidate) (r c : Candidate), c ∈ rs →
      calculate_result_score c ≤ calculate_result_score (pickBest r rs)
  | [], _, _, h => absurd h (List.not_mem_nil _)
  | c' :: rs, r, c, h => by
      rw [pickBest_cons]
      rcases List.mem_cons.1 h with rfl | hmem
      · refine le_trans ?_ (score_le_pickBest rs _)
        split
        case isTrue => exact le_refl _
        case isFalse hge => exact le_of_not_lt hge
      · exact mem_score_le_pickBest rs _ c hmem

theorem pickBest_first_max :
    ∀ (rs : List Candidate) (r : Candidate),
      ∃ l₁ l₂, r :: rs = l₁ ++ pickBest r rs :: l₂ ∧
        ∀ c ∈ l₁,
          calculate_result_score c < calculate_result_score (pickBest r rs)
  | [], r => ⟨[], [], rfl, by simp⟩
  | c :: rs, r => by
      rw [pickBest_cons]
      by_cases hlt :
          calculate_result_score r < calculate_result_score c
      · rw [if_pos hlt]
        obtain ⟨l₁, l₂, heq, hl₁⟩ := pickBest_first_max rs c
        refine ⟨r :: l₁, l₂, ?_, ?_⟩
        · rw [List.cons_append, ← heq]
        · intro x hx
          rcases List.mem_cons.1 hx with rfl | hx
          · exact lt_of_lt_of_le hlt (score_le_pickBest rs c)
          · exact hl₁ x hx
      · rw [if_neg hlt]
        obtain ⟨l₁, l₂, heq, hl₁⟩ := pickBest_first_max rs r
        cases l₁ with
        | nil =>
            rw [List.nil_append] at heq
            obtain ⟨hB, -⟩ := List.cons.inj heq
            exact ⟨[], c :: rs, by rw [List.nil_append, ← hB], by simp⟩
        | cons a m =>
            rw [List.cons_append] at heq
            obtain ⟨ha, hrs⟩ := List.cons.inj heq
            subst ha
            refine ⟨r :: c :: m, l₂, ?_, ?_⟩
            · rw [List.cons_append, List.cons_append, ← hrs]
            · intro x hx
              have har : calculate_result_score r <
                  calculate_result_score (pickBest r rs) :=
                hl₁ r (List.mem_cons_self r m)
              rcases List.mem_cons.1 hx with rfl | hx
              · exact har
              · rcases List.mem_cons.1 hx with rfl | hx
                · exact lt_of_le_of_lt (le_of_not_lt hlt) har
                · exact hl₁ x (List.mem_cons_of_mem r hx)

/-- C7: on an empty candidate list `select_best_result` returns the
sentinel (empty text, confidence 0, strategy `"none"`); on a non-empty
list it returns a candidate of maximal score, and the earliest such
candidate in input order (everything strictly before it scores strictly
less). -/
theorem claim_C7 (results : List Candidate) :
    (results = [] →
      select_best_result results = sentinel_result ∧
      sentinel_result.text = "" ∧ sentinel_result.confidence = 0 ∧
      sentinel_result.strategy = "none") ∧
    (∀ r rs, results = r :: rs →
      ∃ l₁ l₂, results = l₁ ++ pickBest r rs :: l₂ ∧
        select_best_result results = (pickBest r rs).toBest ∧
        (∀ c ∈ results,
          calculate_result_score c ≤
            calculate_result_score (pickBest r rs)) ∧
        (∀ c ∈ l₁,
          calculate_result_score c <
            calculate_result_score (pickBest r rs))) := by
  constructor
  · rintro rfl
    exact ⟨rfl, rfl, rfl, rfl⟩
  · rintro r rs rfl
    obtain ⟨l₁, l₂, heq, hl₁⟩ := pickBest_first_max rs r
    refine ⟨l₁, l₂, heq, rfl, ?_, hl₁⟩
    intro c hc
    rcases List.mem_cons.1 hc with rfl | hc
    · exact score_le_pickBest rs c
    · exact mem_score_le_pickBest rs r c hc

/-- C7, witness: the theorem applied to the two-element tie — the
decomposition puts the winner at a position all of whose predecessors
score strictly less. -/
theorem claim_C7_witness :
    ∃ l₁ l₂, [tieCandA, tieCandB] = l₁ ++ pickBest tieCandA [tieCandB] :: l₂ ∧
      select_best_result [tieCandA, tieCandB] =
        (pickBest tieCandA [tieCandB]).toBest ∧
      (∀ c ∈ [tieCandA, tieCandB],
        calculate_result_score c ≤
          calculate_result_score (pickBest tieCandA [tieCandB])) ∧
      (∀ c ∈ l₁,
        calculate_result_score c <
          calculate_result_score (pickBest tieCandA [tieCandB])) :=
  (claim_C7 [tieCandA, tieCandB]).2 tieCandA [tieCandB] rfl


/-! ## Split/join machinery for the post-processing idempotence claim -/

/-- Unfolding equation of `splitWsAux` on the empty list. -/
theorem splitWsAux_nil (acc : List Char) :
    splitWsAux [] acc = if acc.isEmpty then [] else [acc.reverse] := rfl

/-- Unfolding equation of `splitWsAux` on a cons. -/
theorem splitWsAux_cons (c : Char) (cs acc : List Char) :
    splitWsAux (c :: cs) acc =
      if pyIsSpace c then
        if acc.isEmpty then splitWsAux cs []
        else acc.reverse :: splitWsAux cs []
      else splitWsAux cs (c :: acc) := rfl

/-- Every word produced by the splitter is non-empty and whitespace-free (given a whitespace-free accumulator). -/
theorem splitWsAux_words : ∀ (l acc : List Char),
    (∀ c ∈ acc, pyIsSpace c = false) →
    ∀ w ∈ splitWsAux l acc, w ≠ [] ∧ ∀ c ∈ w, pyIsSpace c = false := by
  intro l
  induction l with
  | nil =>
      intro acc hacc w hw
      unfold splitWsAux at hw
      split at hw
      · exact absurd hw (List.not_mem_nil w)
      · rename_i hne
        rw [List.mem_singleton] at hw
        subst hw
        refine ⟨?_, fun c hc => hacc c (List.mem_reverse.1 hc)⟩
        intro hcon
        rw [List.reverse_eq_nil_iff] at hcon
        subst hcon
        simp at hne
  | cons c cs ih =>
      intro acc hacc w hw
      unfold splitWsAux at hw
      split at hw
      · split at hw
        · exact ih [] (by simp) w hw
        · rename_i hne
          rcases List.mem_cons.1 hw with rfl | hw'
          · refine ⟨?_, fun x hx => hacc x (List.mem_reverse.1 hx)⟩
            intro hcon
            rw [List.reverse_eq_nil_iff] at hcon
            subst hcon
            simp at hne
          · exact ih [] (by simp) w hw'
      · rename_i hsp
        refine ih (c :: acc) ?_ w hw
        intro x hx
        rcases List.mem_cons.1 hx with rfl | hx
        · exact Bool.eq_false_iff.2 hsp
        · exact hacc x hx

/-- Every character of a produced word comes from the accumulator or the input. -/
theorem splitWsAux_chars : ∀ (l acc : List Char) (w : List Char) (c : Char),
    w ∈ splitWsAux l acc → c ∈ w → c ∈ acc ∨ c ∈ l := by
  intro l
  induction l with
  | nil =>
      intro acc w c hw hc
      unfold splitWsAux at hw
      split at hw
      · exact absurd hw (List.not_mem_nil w)
      · rw [List.mem_singleton] at hw
        subst hw
        exact Or.inl (List.mem_reverse.1 hc)
  | cons a cs ih =>
      intro acc w c hw hc
      unfold splitWsAux at hw
      split at hw
      · split at hw
        · rcases ih [] w c hw hc with h | h
          · exact absurd h (List.not_mem_nil c)
          · exact Or.inr (List.mem_cons_of_mem a h)
        · rcases List.mem_cons.1 hw with rfl | hw'
          · exact Or.inl (List.mem_reverse.1 hc)
          · rcases ih [] w c hw' hc with h | h
            · exact absurd h (List.not_mem_nil c)
            · exact Or.inr (List.mem_cons_of_mem a h)
      · rcases ih (a :: acc) w c hw hc with h | h
        · rcases List.mem_cons.1 h with rfl | h'
          · exact Or.inr (List.mem_cons_self c cs)
          · exact Or.inl h'
        · exact Or.inr (List.mem_cons_of_mem a h)

/-- Consuming a whitespace-free prefix just transfers it (reversed) into the accumulator. -/
theorem splitWsAux_prefix : ∀ (w rest acc : List Char),
    (∀ c ∈ w, pyIsSpace c = false) →
    splitWsAux (w ++ rest) acc = splitWsAux rest (w.reverse ++ acc) := by
  intro w
  induction w with
  | nil => intro rest acc _; simp
  | cons c w' ih =>
      intro rest acc hw
      have hc : pyIsSpace c = false := hw c (List.mem_cons_self c w')
      rw [List.cons_append, splitWsAux_cons, hc]
      simp only [Bool.false_eq_true, if_false]
      rw [ih rest (c :: acc) (fun x hx => hw x (List.mem_cons_of_mem c hx))]
      rw [List.reverse_cons, List.append_assoc, List.singleton_append]

/-- Splitting the space-join of non-empty whitespace-free words recovers the words: the split/join round trip. -/
theorem splitWs_joinSp : ∀ (ws : List (List Char)),
    (∀ w ∈ ws, w ≠ [] ∧ ∀ c ∈ w, pyIsSpace c = false) →
    splitWs (joinSp ws) = ws := by
  intro ws
  induction ws with
  | nil => intro _; rfl
  | cons w tail ih =>
      intro hws
      obtain ⟨hwne, hwsp⟩ := hws w (List.mem_cons_self w tail)
      have hwrev : w.reverse.isEmpty = false := by
        simp [List.isEmpty_iff, hwne]
      cases tail with
      | nil =>
          show splitWs (joinSp [w]) = [w]
          have h1 : splitWsAux (w ++ []) [] =
              splitWsAux [] (w.reverse ++ []) :=
            splitWsAux_prefix w [] [] hwsp
          rw [List.append_nil, List.append_nil] at h1
          unfold joinSp splitWs
          rw [h1, splitWsAux_nil, hwrev]
          simp
      | cons w' tail' =>
          show splitWs (joinSp (w :: w' :: tail')) = w :: w' :: tail'
          have h1 : splitWsAux (w ++ (' ' :: joinSp (w' :: tail'))) [] =
              splitWsAux (' ' :: joinSp (w' :: tail')) (w.reverse ++ []) :=
            splitWsAux_prefix w _ [] hwsp
          rw [List.append_nil] at h1
          unfold joinSp splitWs
          rw [h1, splitWsAux_cons]
          have hsp : pyIsSpace ' ' = true := by decide
          rw [hsp, if_pos rfl, hwrev]
          simp only [Bool.false_eq_true, if_false, List.reverse_reverse]
          have h2 := ih (fun x hx => hws x (List.mem_cons_of_mem w hx))
          unfold splitWs at h2
          rw [h2]

/-- The space-join of a non-empty list of non-empty words is non-empty. -/
theorem joinSp_ne_nil : ∀ (ws : List (List Char)), ws ≠ [] →
    (∀ w ∈ ws, w ≠ []) → joinSp ws ≠ [] := by
  intro ws hne hw
  cases ws with
  | nil => exact absurd rfl hne
  | cons w tail =>
      cases tail with
      | nil => exact hw w (List.mem_cons_self w [])
      | cons w' tail' =>
          show w ++ ' ' :: joinSp (w' :: tail') ≠ []
          simp

/-- A character of the space-join is the separator or a character of some word. -/
theorem mem_joinSp : ∀ (ws : List (List Char)) (c : Char),
    c ∈ joinSp ws → c = ' ' ∨ ∃ w ∈ ws, c ∈ w := by
  intro ws
  induction ws with
  | nil => intro c hc; exact absurd hc (List.not_mem_nil c)
  | cons w tail ih =>
      intro c hc
      cases tail with
      | nil => exact Or.inr ⟨w, List.mem_cons_self w [], hc⟩
      | cons w' tail' =>
          rw [show joinSp (w :: w' :: tail') =
              w ++ ' ' :: joinSp (w' :: tail') from rfl,
            List.mem_append] at hc
          rcases hc with hc | hc
          · exact Or.inr ⟨w, List.mem_cons_self w _, hc⟩
          · rcases List.mem_cons.1 hc with rfl | hc
            · exact Or.inl rfl
            · rcases ih c hc with h | ⟨v, hv, hcv⟩
              · exact Or.inl h
              · exact Or.inr ⟨v, List.mem_cons_of_mem w hv, hcv⟩

/-- A character map fixing the space commutes with the space-join. -/
theorem map_joinSp (f : Char → Char) (hf : f ' ' = ' ') :
    ∀ (ws : List (List Char)),
      (joinSp ws).map f = joinSp (ws.map (List.map f)) := by
  intro ws
  induction ws with
  | nil => rfl
  | cons w tail ih =>
      cases tail with
      | nil => rfl
      | cons w' tail' =>
          show (w ++ ' ' :: joinSp (w' :: tail')).map f =
            joinSp (w.map f :: (w' :: tail').map (List.map f))
          rw [List.map_append, List.map_cons, hf, ih]
          rfl

/-- The space-join of non-empty whitespace-free words starts with a non-whitespace character. -/
theorem head?_joinSp : ∀ (ws : List (List Char)), ws ≠ [] →
    (∀ w ∈ ws, w ≠ [] ∧ ∀ c ∈ w, pyIsSpace c = false) →
    ∃ x, (joinSp ws).head? = some x ∧ pyIsSpace x = false := by
  intro ws hne hws
  cases ws with
  | nil => exact absurd rfl hne
  | cons w tail =>
      obtain ⟨hwne, hwsp⟩ := hws w (List.mem_cons_self w tail)
      obtain ⟨x, w', rfl⟩ : ∃ x w', w = x :: w' := by
        cases w with
        | nil => exact absurd rfl hwne
        | cons x w' => exact ⟨x, w', rfl⟩
      have hx : pyIsSpace x = false := hwsp x (List.mem_cons_self x w')
      cases tail with
      | nil => exact ⟨x, rfl, hx⟩
      | cons w'' tail' => exact ⟨x, rfl, hx⟩

/-- The space-join of non-empty whitespace-free words ends with a non-whitespace character. -/
theorem getLast?_joinSp : ∀ (ws : List (List Char)), ws ≠ [] →
    (∀ w ∈ ws, w ≠ [] ∧ ∀ c ∈ w, pyIsSpace c = false) →
    ∃ x, (joinSp ws).getLast? = some x ∧ pyIsSpace x = false := by
  intro ws
  induction ws with
  | nil => intro hne _; exact absurd rfl hne
  | cons w tail ih =>
      intro _ hws
      obtain ⟨hwne, hwsp⟩ := hws w (List.mem_cons_self w tail)
      cases tail with
      | nil =>
          refine ⟨w.getLast hwne, ?_, hwsp _ (List.getLast_mem hwne)⟩
          exact List.getLast?_eq_getLast w hwne
      | cons w' tail' =>
          obtain ⟨x, hx, hxs⟩ := ih (by simp)
            (fun v hv => hws v (List.mem_cons_of_mem w hv))
          refine ⟨x, ?_, hxs⟩
          have hJne : joinSp (w' :: tail') ≠ [] :=
            joinSp_ne_nil _ (by simp)
              (fun v hv => (hws v (List.mem_cons_of_mem w hv)).1)
          show (w ++ ' ' :: joinSp (w' :: tail')).getLast? = some x
          rw [List.getLast?_append_of_ne_nil w (by simp)]
          rw [show (' ' :: joinSp (w' :: tail')) =
            [' '] ++ joinSp (w' :: tail') from rfl,
            List.getLast?_append_of_ne_nil [' '] hJne]
          exact hx

/-- Dropping leading whitespace from a list whose head is not whitespace changes nothing. -/
theorem dropWhile_eq_self_of_head? (m : List Char)
    (h : ∀ x, m.head? = some x → pyIsSpace x = false) :
    m.dropWhile pyIsSpace = m := by
  cases m with
  | nil => rfl
  | cons x t =>
      rw [List.dropWhile_cons, h x rfl]
      simp

/-- Stripping is the identity when neither end of the list is whitespace. -/
theorem stripWs_eq_self (m : List Char)
    (h1 : ∀ x, m.head? = some x → pyIsSpace x = false)
    (h2 : ∀ x, m.getLast? = some x → pyIsSpace x = false) :
    stripWs m = m := by
  unfold stripWs stripL
  rw [dropWhile_eq_self_of_head? m h1]
  rw [dropWhile_eq_self_of_head? m.reverse
    (fun x hx => h2 x (by rwa [List.head?_reverse] at hx))]
  exact List.reverse_reverse m

/-- The composite substitution fixes characters other than the three substituted ones. -/
theorem substC_eq_self {c : Char} (h1 : c ≠ '|') (h2 : c ≠ '0')
    (h3 : c ≠ '5') : substC c = c := by
  unfold substC substPipe substZero substFive
  rw [if_neg h1, if_neg h2, if_neg h3]

/-- The composite substitution is idempotent character-wise. -/
theorem substC_idem (c : Char) : substC (substC c) = substC c := by
  by_cases h1 : c = '|'
  · subst h1; decide
  · by_cases h2 : c = '0'
    · subst h2; decide
    · by_cases h3 : c = '5'
      · subst h3; decide
      · rw [substC_eq_self h1 h2 h3, substC_eq_self h1 h2 h3]

/-- The composite substitution is idempotent on lists. -/
theorem map_substC_map_substC (m : List Char) :
    (m.map substC).map substC = m.map substC := by
  induction m with
  | nil => rfl
  | cons a t ih => simp only [List.map_cons, substC_idem a, ih]

/-- The composite substitution preserves whitespace-status of a character. -/
theorem substC_space (c : Char) : pyIsSpace (substC c) = pyIsSpace c := by
  by_cases h1 : c = '|'
  · subst h1; decide
  · by_cases h2 : c = '0'
    · subst h2; decide
    · by_cases h3 : c = '5'
      · subst h3; decide
      · rw [substC_eq_self h1 h2 h3]

/-- The composite substitution preserves printability. -/
theorem substC_printable {c : Char} (h : pyIsPrintable c = true) :
    pyIsPrintable (substC c) = true := by
  by_cases h1 : c = '|'
  · subst h1; decide
  · by_cases h2 : c = '0'
    · subst h2; decide
    · by_cases h3 : c = '5'
      · subst h3; decide
      · rwa [substC_eq_self h1 h2 h3]

/-- Core of the amended C4: on inputs whose characters are all printable or whitespace, one application of the post-processing chain reaches a fixed point. -/
theorem postProcessChars_idem (l : List Char)
    (h : ∀ c ∈ l, pyIsPrintable c = true ∨ pyIsSpace c = true) :
    postProcessChars (postProcessChars l) = postProcessChars l := by
  by_cases hl : l.isEmpty
  · rw [List.isEmpty_iff] at hl
    subst hl
    rfl
  · have hwords := splitWsAux_words l [] (by simp)
    have hchars : ∀ w ∈ splitWs l, ∀ c ∈ w, c ∈ l := by
      intro w hw c hc
      rcases splitWsAux_chars l [] w c hw hc with hx | hx
      · exact absurd hx (List.not_mem_nil c)
      · exact hx
    set ws := splitWs l with hwsdef
    set y := (joinSp ws).map substC with hydef
    -- every character of y is printable
    have hyprint : ∀ c ∈ y, pyIsPrintable c = true := by
      intro c hc
      obtain ⟨a, ha, rfl⟩ := List.mem_map.1 hc
      rcases mem_joinSp ws a ha with rfl | ⟨w, hw, haw⟩
      · decide
      · have hans : pyIsSpace a = false := (hwords w hw).2 a haw
        have hal : a ∈ l := hchars w hw a haw
        rcases h a hal with hp | hs
        · exact substC_printable hp
        · rw [hans] at hs; exact absurd hs (by simp)
    have hfilter : y.filter pyIsPrintable = y :=
      List.filter_eq_self.2 hyprint
    -- y is the space-join of the substituted words
    have hy2 : y = joinSp (ws.map (List.map substC)) :=
      map_joinSp substC (by decide) ws
    set ws' := ws.map (List.map substC) with hwsSubDef
    have hwords' : ∀ w ∈ ws', w ≠ [] ∧ ∀ c ∈ w, pyIsSpace c = false := by
      intro w' hw'
      obtain ⟨w, hw, rfl⟩ := List.mem_map.1 hw'
      obtain ⟨hne, hsp⟩ := hwords w hw
      refine ⟨by simpa using hne, ?_⟩
      intro c hc
      obtain ⟨a, ha, rfl⟩ := List.mem_map.1 hc
      rw [substC_space]
      exact hsp a ha
    -- strip is the identity on y
    have hstrip : stripWs y = y := by
      by_cases hws0 : ws = []
      · rw [hydef, hws0]
        rfl
      · have hws'0 : ws' ≠ [] := by
          rw [hwsSubDef]
          simpa using hws0
        obtain ⟨x1, hx1, hx1s⟩ := head?_joinSp ws' hws'0 hwords'
        obtain ⟨x2, hx2, hx2s⟩ := getLast?_joinSp ws' hws'0 hwords'
        rw [hy2]
        refine stripWs_eq_self _ ?_ ?_
        · intro x hx
          rw [hx1] at hx
          injection hx with hx
          subst hx
          exact hx1s
        · intro x hx
          rw [hx2] at hx
          injection hx with hx
          subst hx
          exact hx2s
    -- the first application produces y
    have happ1 : postProcessChars l = y := by
      unfold postProcessChars
      rw [if_neg hl, ← hwsdef, substAll_eq_map, ← hydef, hfilter, hstrip]
    -- substitution fixes y
    have hsuby : y.map substC = y := by
      rw [hydef]
      exact map_substC_map_substC (joinSp ws)
    -- the second application fixes y
    have happ2 : postProcessChars y = y := by
      by_cases hy0 : y.isEmpty
      · rw [List.isEmpty_iff] at hy0
        rw [hy0]
        rfl
      · unfold postProcessChars
        rw [if_neg hy0, hy2, splitWs_joinSp ws' hwords', ← hy2,
          substAll_eq_map, hsuby, hfilter, hstrip]
    rw [happ1, happ2]

/-- C4, counterexample: `post_process_text` is NOT idempotent.  On
`"a \x00 b"` the null byte is its own whitespace-delimited token; the
printable filter deletes it after whitespace was collapsed, leaving a
double space (`"a  b"`), which a second application collapses to
`"a b"`. -/
theorem claim_C4_counterexample :
    post_process_text (post_process_text "a \x00 b") ≠
      post_process_text "a \x00 b" := by
  decide

/-- C4, amended: `post_process_text` is idempotent on every string whose
characters are all printable or whitespace — in particular on all
ordinary text; non-idempotence requires a whitespace-delimited token made
entirely of non-printable characters. -/
theorem claim_C4_amended (s : String)
    (h : ∀ c ∈ s.data, pyIsPrintable c = true ∨ pyIsSpace c = true) :
    post_process_text (post_process_text s) = post_process_text s :=
  congrArg String.mk (postProcessChars_idem s.data h)

/-- C4, witness: the amended theorem applied to a concrete messy but
printable string. -/
theorem claim_C4_witness :
    post_process_text (post_process_text "  Inv0ice\t#5 |  total  ") =
      post_process_text "  Inv0ice\t#5 |  total  " :=
  claim_C4_amended "  Inv0ice\t#5 |  total  " (by decide)

end ScreenshotOCR
